import Mathlib

/-!
Verification of the ECG_IOT_PROJ signal-processing pipeline
(`ecg_processing.py`, configuration constants from `config.py`).

Shallow embedding choices:
* Sample amplitudes, filter corners and HRV values are modelled as `ℚ`
  (Python floats are rationals); `np.std` / `np.sqrt` values live in `ℝ`
  via `Real.sqrt`.
* The undefined sentinel `np.nan` is modelled as `Option.none`.
* A Python dict built by successive assignments of distinct keys is
  modelled as an association list in assignment order.
* `scipy.signal.butter`/`filtfilt` (an external library, never reached by
  the guard paths studied here) is a parameter `core` of the filter stage.
* Python float division by zero raises `ZeroDivisionError`; the one
  reachable site (`lowcut / nyquist` with `nyquist = 0`) is modelled with
  `Except`.
-/

namespace ECG

/-- Configuration parameters of `config.py` relevant to the pipeline,
passed explicitly (the Python module reads them as globals). -/
structure Config where
  sampling_rate_hz : ℚ
  filter_lowcut_hz : ℚ
  filter_highcut_hz : ℚ
  filter_order : ℕ
  peak_height_threshold_multiplier : ℚ
  max_hr_bpm_for_peak_distance : ℚ

/-- Values of `config.py`: SAMPLING_RATE_HZ = 250, FILTER_LOWCUT_HZ = 0.5,
FILTER_HIGHCUT_HZ = 40.0, FILTER_ORDER = 3,
PEAK_HEIGHT_THRESHOLD_MULTIPLIER = 0.7, MAX_HR_BPM_FOR_PEAK_DISTANCE = 220. -/
def defaultConfig : Config :=
  { sampling_rate_hz := 250
    filter_lowcut_hz := 1/2
    filter_highcut_hz := 40
    filter_order := 3
    peak_height_threshold_multiplier := 7/10
    max_hr_bpm_for_peak_distance := 220 }

/-- Arithmetic mean, `np.mean` (mean of the empty list is 0/0 = 0 in `ℚ`;
the code never takes a mean of an empty array on a path studied here). -/
def listMean (l : List ℚ) : ℚ := l.sum / l.length

/-- Successive differences, `np.diff`: `d[i] = l[i+1] - l[i]`. -/
def npdiff (l : List ℚ) : List ℚ := List.zipWith (fun a b => a - b) l.tail l

/-- Maximum of a list, `np.max` (only applied to non-empty signals). -/
def npmax : List ℚ → ℚ
  | [] => 0
  | h :: t => t.foldl max h

/-- Minimum of a list, `np.min` (only applied to non-empty signals). -/
def npmin : List ℚ → ℚ
  | [] => 0
  | h :: t => t.foldl min h

/-- Median, `np.median`: sort ascending, take the middle element (odd
length) or the mean of the two middle elements (even length). -/
def npmedian (l : List ℚ) : ℚ :=
  let s := l.mergeSort (fun a b => decide (a ≤ b))
  if l.length % 2 = 1 then s.getD (l.length / 2) 0
  else (s.getD (l.length / 2 - 1) 0 + s.getD (l.length / 2) 0) / 2

/-- Population variance: mean of squared deviations.
`np.std l = Real.sqrt (npvariance l)`. -/
def npvariance (l : List ℚ) : ℚ := listMean (l.map fun x => (x - listMean l) ^ 2)

/-- Python `int()` truncation toward zero of a float. -/
def pyInt (q : ℚ) : ℤ := if 0 ≤ q then ⌊q⌋ else ⌈q⌉

/-- Numerical core `butter` + `filtfilt` of `scipy.signal`, abstracted as a
parameter (arguments: order, normalized low corner, normalized high
corner, data); every claim studied here is decided before this core runs. -/
def FilterCore : Type := ℕ → ℚ → ℚ → List ℚ → List ℚ

/-- Embedding of `butter_bandpass_filter` (ecg_processing.py lines 7-33).
`Except.error` models the uncaught `ZeroDivisionError` raised by
`lowcut / nyquist` when the configured rate is zero; the `try/except
ValueError` around the scipy call is absorbed into the total `core`. -/
def butter_bandpass_filter (core : FilterCore) (cfg : Config) (data : List ℚ) :
    Except Unit (List ℚ) :=
  let nyquist := (1/2 : ℚ) * cfg.sampling_rate_hz
  if nyquist = 0 then Except.error ()
  else
    let low := cfg.filter_lowcut_hz / nyquist
    let high := cfg.filter_highcut_hz / nyquist
    if low ≤ 0 ∨ 1 ≤ high ∨ high ≤ low then Except.ok data
    else if data.length < cfg.filter_order * 3 then Except.ok data
    else Except.ok (core cfg.filter_order low high data)

/-- Decision procedure for the strict threshold comparison
`x > med + m * sqrt v` used by the peak height filter, valid for the
nonnegative configured multiplier and nonnegative variance
(see `heightAbove_iff`): square both sides. -/
def heightAbove (x med m v : ℚ) : Bool :=
  decide (med < x) && decide (m ^ 2 * v < (x - med) ^ 2)

/-- Distance between two sample indices. -/
def natDelta (a b : ℕ) : ℕ := max a b - min a b

/-- Highest-amplitude candidate, ties broken by lower index
(accumulator `b` is the best seen so far). -/
def pickBest (amp : ℕ → ℚ) : ℕ → List ℕ → ℕ
  | b, [] => b
  | b, c :: t =>
    pickBest amp (if amp b < amp c ∨ (amp c = amp b ∧ c < b) then c else b) t

/-- Greedy suppression of `scipy.signal.find_peaks` with a `distance`
argument: repeatedly keep the highest-amplitude remaining candidate and
discard every other candidate closer than `dist` to it.  The fuel is the
length of the candidate list; every round removes the kept candidate, so
the fuel never runs out. -/
def suppressFuel (amp : ℕ → ℚ) (dist : ℕ) : ℕ → List ℕ → List ℕ
  | 0, _ => []
  | _ + 1, [] => []
  | fuel + 1, h :: t =>
    let b := pickBest amp h t
    b :: suppressFuel amp dist fuel
      ((h :: t).filter fun c => decide (c ≠ b ∧ dist ≤ natDelta c b))

/-- Modelled from the spec: `scipy.signal.find_peaks` (external library,
not part of this repository's sources) with `height` and `distance`
arguments, per spec section 4.2: scan for local maxima exceeding the
threshold `med + mult * sqrt var`; among candidates closer than `dist`,
keep the higher-amplitude one, breaking ties by lower index, and discard
the rest (greedy suppression).  The result is listed in ascending index
order. -/
def find_peaks (sig : List ℚ) (med mult var : ℚ) (dist : ℕ) : List ℕ :=
  let amp := fun i => sig.getD i 0
  let cands := (List.range sig.length).filter fun i =>
    decide (0 < i) && decide (i + 1 < sig.length) &&
    decide (amp (i - 1) < amp i) && decide (amp (i + 1) < amp i) &&
    heightAbove (amp i) med mult var
  let kept := suppressFuel amp dist cands.length cands
  cands.filter fun i => decide (i ∈ kept)

/-- Embedding of `detect_r_peaks` (ecg_processing.py lines 35-70).
The threshold `median + multiplier * std` is passed to `find_peaks` as its
components (median, multiplier, variance) and decided by `heightAbove`.
Python would raise `ZeroDivisionError` in `60.0 / MAX_HR_BPM` were that
constant zero; that line is only reached with the configured 220 in every
claim studied here, so division is the total `ℚ` division. -/
def detect_r_peaks (cfg : Config) (sig : List ℚ) : List ℕ :=
  if sig.length = 0 then []
  else
    let median_val := npmedian sig
    let variance := npvariance sig
    if npmax sig - npmin sig < 1 / 1000000 then []
    else if cfg.sampling_rate_hz ≤ 0 then []
    else
      let md0 := pyInt (cfg.sampling_rate_hz * (60 / cfg.max_hr_bpm_for_peak_distance))
      let md1 := max 1 md0
      let md := min md1 ((sig.length : ℤ) - 1)
      if md ≤ 0 then []
      else find_peaks sig median_val cfg.peak_height_threshold_multiplier variance md.toNat

/-- Embedding of `calculate_rr_intervals` (ecg_processing.py lines 72-81):
`none` models the Python `None` argument. -/
def calculate_rr_intervals (cfg : Config) (r_peaks_indices : Option (List ℕ)) : List ℚ :=
  match r_peaks_indices with
  | none => []
  | some p =>
    if p.length < 2 then []
    else if cfg.sampling_rate_hz ≤ 0 then []
    else (npdiff (p.map fun n : ℕ => (n : ℚ))).map fun d => d / cfg.sampling_rate_hz * 1000

def keyMeanRR : String := "Mean_RR_ms"

def keySDNN : String := "SDNN_ms"

def keyRMSSD : String := "RMSSD_ms"

def keyPNN50 : String := "pNN50_percent"

def keyMeanHR : String := "Mean_Heart_Rate_BPM"

/-- Metrics dict of the `< 2 intervals` path: every metric is the
undefined sentinel `np.nan`, modelled as `none`. -/
def nanMetrics : List (String × Option ℝ) :=
  [(keyMeanRR, none), (keySDNN, none), (keyRMSSD, none),
   (keyPNN50, none), (keyMeanHR, none)]

/-- Embedding of `calculate_hrv_metrics` (ecg_processing.py lines 83-111).
The Python dict is built by successive assignments of pairwise-distinct
keys, modelled as an association list in assignment order; `np.nan` is
`none`.  The inner `if len >= 2` / `if len(diff_rr) > 0` branches are
mirrored even though their else arms are unreachable under the outer
guard. -/
noncomputable def calculate_hrv_metrics (rr_intervals_ms : Option (List ℚ)) :
    List (String × Option ℝ) :=
  match rr_intervals_ms with
  | none => nanMetrics
  | some l =>
    if l.length < 2 then nanMetrics
    else
      let meanRR := listMean l
      let sdnn : ℝ := Real.sqrt ((npvariance l : ℚ) : ℝ)
      let base : List (String × Option ℝ) :=
        [(keyMeanRR, some ((meanRR : ℝ))), (keySDNN, some sdnn)]
      let next : List (String × Option ℝ) :=
        if 2 ≤ l.length then
          let d := npdiff l
          let rmssd : ℝ := Real.sqrt ((listMean (d.map fun x => x ^ 2) : ℚ) : ℝ)
          let nn50 := (d.filter fun x => decide (50 < |x|)).length
          let pnn50 : ℚ :=
            if 0 < d.length then ((nn50 : ℚ) / (d.length : ℚ)) * 100 else 0
          [(keyRMSSD, some rmssd), (keyPNN50, some ((pnn50 : ℝ)))]
        else [(keyRMSSD, none), (keyPNN50, none)]
      let hr : List (String × Option ℝ) :=
        if 0 < meanRR then [(keyMeanHR, some (((60000 : ℚ) / meanRR : ℚ) : ℝ))]
        else [(keyMeanHR, none)]
      base ++ next ++ hr

/-- Result of `process_ecg_data`: `abort` is the `None, None, None, {}`
return, `crash` an uncaught exception, `ok` the normal four-field tuple. -/
inductive PipelineResult : Type
  | crash : PipelineResult
  | abort : PipelineResult
  | ok (filtered : List ℚ) (peaks : List ℕ) (rr : List ℚ)
      (metrics : List (String × Option ℝ)) : PipelineResult

/-- Embedding of `process_ecg_data` (ecg_processing.py lines 113-157).
The short-data abort sits inside the `len < rate * 2` warning branch,
exactly as in the source. -/
noncomputable def process_ecg_data (core : FilterCore) (cfg : Config)
    (raw_ecg_signal : List ℚ) : PipelineResult :=
  if raw_ecg_signal.length = 0 then PipelineResult.abort
  else if (raw_ecg_signal.length : ℚ) < cfg.sampling_rate_hz * 2 ∧
      raw_ecg_signal.length < cfg.filter_order * 3 then PipelineResult.abort
  else
    match butter_bandpass_filter core cfg raw_ecg_signal with
    | Except.error _ => PipelineResult.crash
    | Except.ok filtered =>
      let r_peaks := detect_r_peaks cfg filtered
      if r_peaks.length < 2 then
        PipelineResult.ok filtered r_peaks [] (calculate_hrv_metrics (some []))
      else
        PipelineResult.ok filtered r_peaks (calculate_rr_intervals cfg (some r_peaks))
          (calculate_hrv_metrics (some (calculate_rr_intervals cfg (some r_peaks))))

/-- Minimum peak spacing exactly as claimed by the spec:
`clamp(round(sampling_rate_hz * 60 / max_hr_bpm), 1, len - 1)`, here
instantiated at the configured rate 250 and maximum heart rate 220. -/
def claimedMinDistance (len : ℕ) : ℕ :=
  min (max (round ((250 * (60 / 220) : ℚ))).toNat 1) (len - 1)

/-- Crossed filter corners of spec Example C: low_cut_hz = 40,
high_cut_hz = 0.5, other values as configured. -/
def crossedConfig : Config :=
  { defaultConfig with filter_lowcut_hz := 40, filter_highcut_hz := 1/2 }

/-- Configuration with a negative sampling rate (other values as
configured), used to probe the InvalidSamplingRate policy. -/
def cfgNegRate : Config := { defaultConfig with sampling_rate_hz := -1 }

/-- Concrete filter core used to instantiate universally quantified
statements in witnesses; the guard paths never evaluate it. -/
def idCore : FilterCore := fun _ _ _ d => d

/-! ### Helper lemmas shared between claims -/

/-- Fewer than two RR intervals make every metric the undefined sentinel
(the first branch of `calculate_hrv_metrics`). -/
lemma hrv_nan_of_short (rr : List ℚ) (h : rr.length < 2) :
    calculate_hrv_metrics (some rr) = nanMetrics := by
  simp [calculate_hrv_metrics, h]

/-- A non-positive sampling rate makes `detect_r_peaks` return the empty
peak list on every path. -/
lemma detect_empty_of_nonpos (cfg : Config) (sig : List ℚ)
    (h : cfg.sampling_rate_hz ≤ 0) : detect_r_peaks cfg sig = [] := by
  unfold detect_r_peaks
  split_ifs <;> rfl

/-- Justification of the squaring encoding `heightAbove`: for the
nonnegative configured multiplier and a nonnegative variance it decides
exactly the real comparison `x > med + m * sqrt v` that the Python code
performs with `np.std`. -/
lemma heightAbove_iff (x med m v : ℚ) (hm : 0 ≤ m) (hv : 0 ≤ v) :
    heightAbove x med m v = true ↔
      (med : ℝ) + (m : ℝ) * Real.sqrt ((v : ℝ)) < (x : ℝ) := by
  simp only [heightAbove, Bool.and_eq_true, decide_eq_true_eq]
  have hm' : (0 : ℝ) ≤ (m : ℝ) := by exact_mod_cast hm
  have hv' : (0 : ℝ) ≤ (v : ℝ) := by exact_mod_cast hv
  have hs : Real.sqrt ((v : ℝ)) ^ 2 = (v : ℝ) := Real.sq_sqrt hv'
  have hsn : (0 : ℝ) ≤ Real.sqrt ((v : ℝ)) := Real.sqrt_nonneg _
  have hmul : (0 : ℝ) ≤ (m : ℝ) * Real.sqrt ((v : ℝ)) := mul_nonneg hm' hsn
  constructor
  · rintro ⟨h1, h2⟩
    have h1' : (med : ℝ) < (x : ℝ) := by exact_mod_cast h1
    have h2' : (m : ℝ) ^ 2 * (v : ℝ) < ((x : ℝ) - (med : ℝ)) ^ 2 := by
      exact_mod_cast h2
    nlinarith [hs, hsn, h1', h2', hmul]
  · intro h
    have h1' : (med : ℝ) < (x : ℝ) := by linarith
    have hc : (m : ℝ) * Real.sqrt ((v : ℝ)) < (x : ℝ) - (med : ℝ) := by linarith
    have h2' : (m : ℝ) ^ 2 * (v : ℝ) < ((x : ℝ) - (med : ℝ)) ^ 2 := by
      nlinarith [hs, hsn, hmul, hc]
    exact ⟨by exact_mod_cast h1', by exact_mod_cast h2'⟩

/-- Witness that the nonnegativity premises of `heightAbove_iff` hold on
the code path: the population variance is always nonnegative. -/
lemma npvariance_nonneg (l : List ℚ) : 0 ≤ npvariance l := by
  unfold npvariance listMean
  apply div_nonneg
  · apply List.sum_nonneg
    intro x hx
    simp only [List.mem_map] at hx
    obtain ⟨y, -, rfl⟩ := hx
    positivity
  · positivity

/-- Distance between indices is symmetric. -/
lemma natDelta_comm (a b : ℕ) : natDelta a b = natDelta b a := by
  simp [natDelta, Nat.max_comm, Nat.min_comm]

/-- The selected best candidate comes from the accumulator or the list. -/
lemma pickBest_mem (amp : ℕ → ℚ) : ∀ (l : List ℕ) (b : ℕ), pickBest amp b l ∈ b :: l
  | [], b => by simp [pickBest]
  | c :: t, b => by
    simp only [pickBest]
    split_ifs with hcb
    · rcases List.mem_cons.mp (pickBest_mem amp t c) with h | h
      · simp [h]
      · simp [List.mem_cons, h]
    · rcases List.mem_cons.mp (pickBest_mem amp t b) with h | h
      · simp [h]
      · simp [List.mem_cons, h]

/-- Suppression only keeps candidates of the input list. -/
lemma suppressFuel_subset (amp : ℕ → ℚ) (dist : ℕ) :
    ∀ (fuel : ℕ) (l : List ℕ) (x : ℕ), x ∈ suppressFuel amp dist fuel l → x ∈ l := by
  intro fuel
  induction fuel with
  | zero => intro l x hx; simp [suppressFuel] at hx
  | succ n ih =>
    intro l x hx
    match l with
    | [] => simp [suppressFuel] at hx
    | h :: t =>
      simp only [suppressFuel] at hx
      rcases List.mem_cons.mp hx with h1 | h1
      · rw [h1]; exact pickBest_mem amp t h
      · exact List.mem_of_mem_filter (ih _ _ h1)

/-- Any two distinct peaks kept by the greedy suppression are at least
`dist` apart. -/
lemma suppressFuel_pairwise (amp : ℕ → ℚ) (dist : ℕ) :
    ∀ (fuel : ℕ) (l : List ℕ),
      (suppressFuel amp dist fuel l).Pairwise
        fun a b => a ≠ b ∧ dist ≤ natDelta a b := by
  intro fuel
  induction fuel with
  | zero => intro l; simp [suppressFuel]
  | succ n ih =>
    intro l
    match l with
    | [] => simp [suppressFuel]
    | h :: t =>
      simp only [suppressFuel]
      refine List.Pairwise.cons ?_ (ih _)
      intro y hy
      have hyf := suppressFuel_subset amp dist n _ y hy
      have hcond : y ≠ pickBest amp h t ∧ dist ≤ natDelta y (pickBest amp h t) := by
        have := List.of_mem_filter hyf
        simpa using this
      exact ⟨fun he => hcond.1 he.symm, by rw [natDelta_comm]; exact hcond.2⟩

/-- Kept peaks of `find_peaks` are strictly ascending with consecutive
(indeed all pairwise) gaps of at least `dist`. -/
lemma find_peaks_pairwise (sig : List ℚ) (med mult var : ℚ) (dist : ℕ) :
    (find_peaks sig med mult var dist).Pairwise
      fun a b => a < b ∧ a + dist ≤ b := by
  unfold find_peaks
  set amp := fun i => sig.getD i 0 with hamp
  set cands := (List.range sig.length).filter fun i =>
    decide (0 < i) && decide (i + 1 < sig.length) &&
    decide (amp (i - 1) < amp i) && decide (amp (i + 1) < amp i) &&
    heightAbove (amp i) med mult var with hcands
  set kept := suppressFuel amp dist cands.length cands with hkept
  have hasc : cands.Pairwise (· < ·) :=
    List.Pairwise.sublist (List.filter_sublist _) (List.pairwise_lt_range _)
  have hres : (cands.filter fun i => decide (i ∈ kept)).Pairwise (· < ·) :=
    List.Pairwise.sublist (List.filter_sublist _) hasc
  have hsep : ∀ a ∈ kept, ∀ b ∈ kept, a ≠ b → dist ≤ natDelta a b := by
    intro a ha b hb hne
    have hsym : Symmetric fun a b : ℕ => a ≠ b ∧ dist ≤ natDelta a b := by
      intro x y hxy
      exact ⟨hxy.1.symm, by rw [natDelta_comm]; exact hxy.2⟩
    exact ((suppressFuel_pairwise amp dist cands.length cands).forall hsym ha hb hne).2
  refine List.Pairwise.imp_of_mem ?_ hres
  intro a b hma hmb hab
  have hka : a ∈ kept := by simpa using (List.mem_filter.mp hma).2
  have hkb : b ∈ kept := by simpa using (List.mem_filter.mp hmb).2
  have := hsep a hka b hkb (Nat.ne_of_lt hab)
  refine ⟨hab, ?_⟩
  have : natDelta a b = b - a := by
    simp [natDelta, Nat.max_eq_right (le_of_lt hab), Nat.min_eq_left (le_of_lt hab)]
  omega

/-- Length of the successive-difference series. -/
lemma npdiff_length (l : List ℚ) : (npdiff l).length = l.length - 1 := by
  simp only [npdiff, List.length_zipWith, List.length_tail]
  omega

/-! ### Claim theorems -/

/-- C2: for every RR interval series of length 0 or 1,
`calculate_hrv_metrics` returns all five metrics — MeanRR, SDNN, RMSSD,
pNN50, MeanHR — as the undefined sentinel. -/
theorem hrv_undefined_short (rr : List ℚ) (h : rr.length < 2) :
    calculate_hrv_metrics (some rr) = nanMetrics :=
  hrv_nan_of_short rr h

/-- Witness for C2 at the empty series. -/
theorem hrv_undefined_short_witness :
    ([] : List ℚ).length < 2 ∧
      calculate_hrv_metrics (some ([] : List ℚ)) = nanMetrics :=
  ⟨by norm_num, hrv_undefined_short [] (by norm_num)⟩

/-- C10: on every path (`None` input, short series, full computation)
`calculate_hrv_metrics` returns a mapping with exactly the five keys
Mean_RR_ms, SDNN_ms, RMSSD_ms, pNN50_percent, Mean_Heart_Rate_BPM, in
that order, each holding a value or the undefined sentinel. -/
theorem hrv_keys_complete (rr : Option (List ℚ)) :
    (calculate_hrv_metrics rr).map Prod.fst =
      [keyMeanRR, keySDNN, keyRMSSD, keyPNN50, keyMeanHR] := by
  match rr with
  | none => simp [calculate_hrv_metrics, nanMetrics]
  | some l =>
    by_cases h : l.length < 2
    · simp [calculate_hrv_metrics, h, nanMetrics]
    · have h2 : 2 ≤ l.length := by omega
      simp only [calculate_hrv_metrics, if_neg h, if_pos h2]
      split_ifs <;> simp

/-- C4: with the configured filter order 3 (and rate 250), every raw
buffer that is empty or has fewer than `filter_order * 3 = 9` samples
makes `process_ecg_data` abort immediately with InsufficientData — no
downstream stage result is produced, for any filter core. -/
theorem orchestrator_insufficient_data (core : FilterCore) (buf : List ℚ)
    (h : buf.length < defaultConfig.filter_order * 3) :
    process_ecg_data core defaultConfig buf = PipelineResult.abort := by
  have h9 : buf.length < 9 := by simpa [defaultConfig] using h
  unfold process_ecg_data
  by_cases h0 : buf.length = 0
  · simp [h0]
  · have hq : (buf.length : ℚ) < defaultConfig.sampling_rate_hz * 2 := by
      have hb : (buf.length : ℚ) < 9 := by exact_mod_cast h9
      have : (defaultConfig.sampling_rate_hz * 2 : ℚ) = 500 := by
        norm_num [defaultConfig]
      linarith
    simp [h0, hq, h]

/-- Witness for C4 at the buffer of length 5 from spec Example D. -/
theorem orchestrator_insufficient_data_witness :
    ([1, 2, 3, 4, 5] : List ℚ).length < defaultConfig.filter_order * 3 ∧
      process_ecg_data idCore defaultConfig [1, 2, 3, 4, 5] = PipelineResult.abort :=
  ⟨by norm_num [defaultConfig],
   orchestrator_insufficient_data idCore [1, 2, 3, 4, 5] (by norm_num [defaultConfig])⟩

/-- C5: whenever the normalized corners `low = lowcut / (0.5 * rate)` and
`high = highcut / (0.5 * rate)` violate `0 < low < high < 1`, or the
buffer is shorter than `order * 3`, `butter_bandpass_filter` returns the
input unchanged (the rate must be non-zero for the corners to be
computed at all; Python raises `ZeroDivisionError` otherwise). -/
theorem filter_guard_passthrough (core : FilterCore) (cfg : Config) (data : List ℚ)
    (h0 : cfg.sampling_rate_hz ≠ 0)
    (h : (cfg.filter_lowcut_hz / ((1/2 : ℚ) * cfg.sampling_rate_hz) ≤ 0 ∨
          1 ≤ cfg.filter_highcut_hz / ((1/2 : ℚ) * cfg.sampling_rate_hz) ∨
          cfg.filter_highcut_hz / ((1/2 : ℚ) * cfg.sampling_rate_hz) ≤
            cfg.filter_lowcut_hz / ((1/2 : ℚ) * cfg.sampling_rate_hz)) ∨
         data.length < cfg.filter_order * 3) :
    butter_bandpass_filter core cfg data = Except.ok data := by
  unfold butter_bandpass_filter
  have hn : ¬ ((1/2 : ℚ) * cfg.sampling_rate_hz = 0) := by
    simpa using h0
  rw [if_neg hn]
  by_cases hc : cfg.filter_lowcut_hz / ((1/2 : ℚ) * cfg.sampling_rate_hz) ≤ 0 ∨
      1 ≤ cfg.filter_highcut_hz / ((1/2 : ℚ) * cfg.sampling_rate_hz) ∨
      cfg.filter_highcut_hz / ((1/2 : ℚ) * cfg.sampling_rate_hz) ≤
        cfg.filter_lowcut_hz / ((1/2 : ℚ) * cfg.sampling_rate_hz)
  · rw [if_pos hc]
  · rw [if_neg hc]
    rcases h with h | h
    · exact absurd h hc
    · rw [if_pos h]

/-- Witness for C5 at the crossed corners of spec Example C
(low_cut_hz = 40, high_cut_hz = 0.5). -/
theorem filter_guard_passthrough_witness :
    crossedConfig.sampling_rate_hz ≠ 0 ∧
      crossedConfig.filter_highcut_hz / ((1/2 : ℚ) * crossedConfig.sampling_rate_hz) ≤
        crossedConfig.filter_lowcut_hz / ((1/2 : ℚ) * crossedConfig.sampling_rate_hz) ∧
      butter_bandpass_filter idCore crossedConfig [1, 2, 3] = Except.ok [1, 2, 3] :=
  ⟨by norm_num [crossedConfig, defaultConfig],
   by norm_num [crossedConfig, defaultConfig],
   filter_guard_passthrough idCore crossedConfig [1, 2, 3]
     (by norm_num [crossedConfig, defaultConfig])
     (Or.inl (Or.inr (Or.inr (by norm_num [crossedConfig, defaultConfig]))))⟩

/-- C1: for a positive sampling rate, `calculate_rr_intervals` returns a
series of length `max(n - 1, 0)` (truncated subtraction on `ℕ`) whose
i-th element is `(peak[i+1] - peak[i]) / rate * 1000` milliseconds, and
fewer than two peaks yield the empty series rather than an error. -/
theorem rr_intervals_spec (cfg : Config) (hfs : 0 < cfg.sampling_rate_hz)
    (p : List ℕ) :
    (calculate_rr_intervals cfg (some p)).length = p.length - 1 ∧
    (p.length < 2 → calculate_rr_intervals cfg (some p) = []) ∧
    (∀ (i a b : ℕ), p[i]? = some a → p[i + 1]? = some b →
      (calculate_rr_intervals cfg (some p))[i]? =
        some (((b : ℚ) - (a : ℚ)) / cfg.sampling_rate_hz * 1000)) := by
  have hr : ¬ cfg.sampling_rate_hz ≤ 0 := not_le.mpr hfs
  by_cases hp : p.length < 2
  · refine ⟨?_, fun _ => ?_, ?_⟩
    · simp only [calculate_rr_intervals, if_pos hp, List.length_nil]
      omega
    · simp [calculate_rr_intervals, hp]
    · intro i a b _ hb
      have : i + 1 < p.length := (List.getElem?_eq_some.mp hb).1
      omega
  · refine ⟨?_, fun hc => absurd hc hp, ?_⟩
    · simp only [calculate_rr_intervals, if_neg hp, if_neg hr, npdiff,
        List.length_map, List.length_zipWith, List.length_tail]
      omega
    · intro i a b ha hb
      simp only [calculate_rr_intervals, if_neg hp, if_neg hr, npdiff]
      rw [List.getElem?_map, List.getElem?_zipWith, List.getElem?_tail,
        List.getElem?_map, List.getElem?_map, ha, hb]
      simp

/-- C8: a non-empty filtered signal whose dynamic range `max - min` is
below `1e-6` makes `detect_r_peaks` return the empty peak set (a
recoverable condition, not an error), for every configuration. -/
theorem flat_signal_empty (cfg : Config) (sig : List ℚ) (hne : sig ≠ [])
    (hflat : npmax sig - npmin sig < 1 / 1000000) :
    detect_r_peaks cfg sig = [] := by
  unfold detect_r_peaks
  have h0 : ¬ sig.length = 0 := by
    simpa using (List.length_pos.mpr hne).ne'
  rw [if_neg h0, if_pos hflat]

/-- Witness for C8 at the constant signal [5, 5, 5]. -/
theorem flat_signal_empty_witness :
    ([5, 5, 5] : List ℚ) ≠ [] ∧
      npmax [5, 5, 5] - npmin [5, 5, 5] < 1 / 1000000 ∧
      detect_r_peaks defaultConfig [5, 5, 5] = [] :=
  ⟨by simp, by norm_num [npmax, npmin],
   flat_signal_empty defaultConfig [5, 5, 5] (by simp) (by norm_num [npmax, npmin])⟩

/-- C6 counterexample: with the configured values except a (negative,
hence non-positive) sampling rate of -1, `process_ecg_data` on the
buffer [0, 3, 0, 3] does not abort: it returns the full four-field
result with an empty peak set, empty intervals and undefined metrics,
contradicting the claim that InvalidSamplingRate is a fatal abort that
produces no result. -/
theorem sampling_rate_nonpos_counterexample :
    process_ecg_data idCore cfgNegRate [0, 3, 0, 3] =
      PipelineResult.ok [0, 3, 0, 3] [] [] nanMetrics ∧
    process_ecg_data idCore cfgNegRate [0, 3, 0, 3] ≠ PipelineResult.abort := by
  have hfs : cfgNegRate.sampling_rate_hz = -1 := rfl
  have hdet : detect_r_peaks cfgNegRate [0, 3, 0, 3] = [] :=
    detect_empty_of_nonpos cfgNegRate [0, 3, 0, 3] (by rw [hfs]; norm_num)
  have hfilt : butter_bandpass_filter idCore cfgNegRate [0, 3, 0, 3] =
      Except.ok [0, 3, 0, 3] := by
    unfold butter_bandpass_filter
    rw [hfs]
    norm_num [cfgNegRate, defaultConfig]
  have hmain : process_ecg_data idCore cfgNegRate [0, 3, 0, 3] =
      PipelineResult.ok [0, 3, 0, 3] [] [] nanMetrics := by
    unfold process_ecg_data
    rw [hfilt]
    simp only [hdet, hfs]
    norm_num [hrv_nan_of_short]
  exact ⟨hmain, by rw [hmain]; exact fun h => PipelineResult.noConfusion h⟩

/-- C6 amended: a negative configured sampling rate is handled as a
recoverable condition, not a fatal abort — the peak detector returns an
empty peak set, and on any non-empty buffer the orchestrator completes
with a full four-field result whose intervals are empty and whose
metrics are all undefined. -/
theorem sampling_rate_nonpos_amended (core : FilterCore) (cfg : Config)
    (buf : List ℚ) (hfs : cfg.sampling_rate_hz < 0) (hne : buf ≠ []) :
    detect_r_peaks cfg buf = [] ∧
    ∃ filtered, process_ecg_data core cfg buf =
      PipelineResult.ok filtered [] [] nanMetrics := by
  have hdet : ∀ sig, detect_r_peaks cfg sig = [] := fun sig =>
    detect_empty_of_nonpos cfg sig (le_of_lt hfs)
  refine ⟨hdet buf, ?_⟩
  have h0 : ¬ buf.length = 0 := by
    simpa using (List.length_pos.mpr hne).ne'
  have hlen : ¬ ((buf.length : ℚ) < cfg.sampling_rate_hz * 2 ∧
      buf.length < cfg.filter_order * 3) := by
    rintro ⟨hq, -⟩
    have h1 : (1 : ℚ) ≤ (buf.length : ℚ) := by
      have : 1 ≤ buf.length := by omega
      exact_mod_cast this
    nlinarith
  have hnyq : ¬ ((1/2 : ℚ) * cfg.sampling_rate_hz = 0) := by
    intro hc
    have : cfg.sampling_rate_hz = 0 := by linarith
    exact absurd this (ne_of_lt hfs)
  have hbf : ∃ f, butter_bandpass_filter core cfg buf = Except.ok f := by
    unfold butter_bandpass_filter
    rw [if_neg hnyq]
    dsimp only
    split_ifs <;> exact ⟨_, rfl⟩
  obtain ⟨f, hbf⟩ := hbf
  refine ⟨f, ?_⟩
  unfold process_ecg_data
  rw [if_neg h0, if_neg hlen, hbf]
  simp [hdet, hrv_nan_of_short]

/-- Witness for C6 amended at rate -1 on buffer [0, 3, 0, 3]. -/
theorem sampling_rate_nonpos_amended_witness :
    cfgNegRate.sampling_rate_hz < 0 ∧
      ([0, 3, 0, 3] : List ℚ) ≠ [] ∧
      (detect_r_peaks cfgNegRate [0, 3, 0, 3] = [] ∧
       ∃ filtered, process_ecg_data idCore cfgNegRate [0, 3, 0, 3] =
        PipelineResult.ok filtered [] [] nanMetrics) :=
  ⟨by norm_num [cfgNegRate, defaultConfig], by simp,
   sampling_rate_nonpos_amended idCore cfgNegRate [0, 3, 0, 3]
     (by norm_num [cfgNegRate, defaultConfig]) (by simp)⟩

/-- C3: every peak set returned by `detect_r_peaks` under the configured
values (rate 250, max heart rate 220) is strictly ascending, and any two
of its indices — in particular consecutive ones — differ by at least
`clamp(round(rate * 60 / max_hr), 1, len - 1)`, the spec's formula for
`min_distance_samples`. -/
theorem peakset_min_distance (sig : List ℚ) :
    (detect_r_peaks defaultConfig sig).Pairwise
      fun a b => a < b ∧ a + claimedMinDistance sig.length ≤ b := by
  unfold detect_r_peaks
  dsimp only
  split_ifs with h0 hf hr hmd
  · exact List.Pairwise.nil
  · exact List.Pairwise.nil
  · exact List.Pairwise.nil
  · exact List.Pairwise.nil
  · have hpy : pyInt (defaultConfig.sampling_rate_hz *
        (60 / defaultConfig.max_hr_bpm_for_peak_distance)) = 68 := by
      have he : defaultConfig.sampling_rate_hz *
          (60 / defaultConfig.max_hr_bpm_for_peak_distance) = 750/11 := by
        norm_num [defaultConfig]
      rw [pyInt, he, if_pos (by norm_num)]
      rw [Int.floor_eq_iff]
      norm_num
    have hro : (round ((250 * (60 / 220) : ℚ))).toNat = 68 := by
      have he : (250 * (60 / 220) : ℚ) = 750/11 := by norm_num
      rw [he, round_eq]
      have hf : ⌊(750/11 : ℚ) + 1/2⌋ = 68 := by
        rw [Int.floor_eq_iff]
        norm_num
      rw [hf]
      rfl
    have hdist : (min (max 1 (pyInt (defaultConfig.sampling_rate_hz *
        (60 / defaultConfig.max_hr_bpm_for_peak_distance))))
          ((sig.length : ℤ) - 1)).toNat = claimedMinDistance sig.length := by
      rw [hpy, claimedMinDistance, hro]
      rw [hpy] at hmd
      omega
    rw [hdist]
    exact find_peaks_pairwise sig (npmedian sig)
      defaultConfig.peak_height_threshold_multiplier (npvariance sig)
      (claimedMinDistance sig.length)

/-- C9 counterexample: for the one-element series [800] no successive
difference exists, and the code leaves pNN50 as the undefined sentinel —
not 0 as the claim states (the `else 0` arm of the Python conditional is
unreachable: it sits inside the branch that already requires at least
two intervals). -/
theorem pnn50_zero_counterexample :
    (calculate_hrv_metrics (some [800])).lookup keyPNN50 = some none ∧
      (calculate_hrv_metrics (some [800])).lookup keyPNN50 ≠
        some (some ((0 : ℚ) : ℝ)) := by
  have h : calculate_hrv_metrics (some [800]) = nanMetrics :=
    hrv_nan_of_short [800] (by norm_num)
  rw [h]
  refine ⟨by rfl, ?_⟩
  rw [show List.lookup keyPNN50 nanMetrics = some none from rfl]
  simp

/-- C9 amended: pNN50 equals `100 * count(|d[i]| > 50) / len(d)` whenever
at least one successive difference exists (series length at least 2);
when no differences exist the metric is the undefined sentinel, not 0. -/
theorem pnn50_amended (rr : List ℚ) :
    (calculate_hrv_metrics (some rr)).lookup keyPNN50 =
      some (if 2 ≤ rr.length then
        some ((100 * (((npdiff rr).filter fun x => decide (50 < |x|)).length : ℚ) /
          ((npdiff rr).length : ℚ) : ℚ) : ℝ)
      else none) := by
  by_cases h : rr.length < 2
  · rw [hrv_nan_of_short rr h, if_neg (by omega)]
    rfl
  · have h2 : 2 ≤ rr.length := by omega
    have hd : 0 < (npdiff rr).length := by
      rw [npdiff_length]; omega
    simp only [calculate_hrv_metrics, if_neg h, if_pos h2, if_pos hd]
    simp only [List.cons_append, List.nil_append, List.lookup]
    norm_num [keyMeanRR, keySDNN, keyRMSSD, keyPNN50]
    push_cast
    ring_nf

/-- C7: spec Example A end to end — peaks [100, 350, 600, 850] at the
configured 250 Hz give RR intervals [1000, 1000, 1000] ms, and those
intervals give MeanRR = 1000, SDNN = 0, RMSSD = 0, pNN50 = 0,
MeanHR = 60. -/
theorem example_a_metrics :
    calculate_rr_intervals defaultConfig (some [100, 350, 600, 850]) =
      [1000, 1000, 1000] ∧
    calculate_hrv_metrics (some [1000, 1000, 1000]) =
      [(keyMeanRR, some ((1000 : ℝ))), (keySDNN, some ((0 : ℝ))),
       (keyRMSSD, some ((0 : ℝ))), (keyPNN50, some ((0 : ℝ))),
       (keyMeanHR, some ((60 : ℝ)))] := by
  constructor
  · norm_num [calculate_rr_intervals, npdiff, defaultConfig]
  · have hm : listMean [1000, 1000, 1000] = 1000 := by
      norm_num [listMean]
    have hv : npvariance [1000, 1000, 1000] = 0 := by
      norm_num [npvariance, listMean]
    have hd : npdiff [1000, 1000, 1000] = [0, 0] := by
      norm_num [npdiff]
    simp only [calculate_hrv_metrics, List.length_cons, List.length_nil]
    norm_num [hm, hv, hd, listMean]

/-- Witness for C1 at spec Example A: peaks [100, 350, 600, 850] at the
configured 250 Hz. -/
theorem rr_intervals_spec_witness :
    (0 : ℚ) < defaultConfig.sampling_rate_hz ∧
      (calculate_rr_intervals defaultConfig (some [100, 350, 600, 850])).length = 3 :=
  ⟨by norm_num [defaultConfig],
   by simpa using
     (rr_intervals_spec defaultConfig (by norm_num [defaultConfig])
       [100, 350, 600, 850]).1⟩

end ECG
